import Mathlib

/-!
# Verification of the palette-mapper core

Shallow embedding of the palette-mapping library (`src/lib`): colors, the
Euclidean distance metric, the nearest-color search, the image traversal
dispatcher, and palette (de)serialization, together with theorems checking
the natural-language specification against this embedding.

Machine integers are modelled with `Nat`/`Int`; wherever overflow or a
fallible conversion matters it is made explicit (`tryIntoU32`), and panics
are modelled with `Option` (`none` = the computation panics).
-/

/-- An 8-bit color channel, exactly the domain of Rust's `u8`. -/
abbrev Channel := Fin 256

/-- An RGBA color: four 8-bit channels (`image::Rgba<u8>`). -/
structure Rgba where
  r : Channel
  g : Channel
  b : Channel
  a : Channel
deriving DecidableEq, Repr

/-- A color palette: an ordered sequence of RGBA colors
(`Palette` in `src/lib/src/palette.rs` wraps a `Vec<Rgba<u8>>`). -/
abbrev Palette := List Rgba

/-- The `i32` computation inside `EuclidianDistance::distance`
(`src/lib/src/distance.rs`).  The blue and alpha terms subtract the *left*
channel from itself, exactly as the source does (`left[2] - left[2]`,
`left[3] - left[3]`); all intermediate values stay far below `i32` bounds
(see `C10_euclid_distance_total`), so plain `Int` models the `i32`
arithmetic exactly. -/
def distanceI32 (left right : Rgba) : Int :=
  ((left.r.val : Int) - (right.r.val : Int)) ^ 2
    + ((left.g.val : Int) - (right.g.val : Int)) ^ 2
    + ((left.b.val : Int) - (left.b.val : Int)) ^ 2
    + ((left.a.val : Int) - (left.a.val : Int)) ^ 2

/-- Rust's `i32 → u32` `try_into`: succeeds exactly on values representable
as `u32`, i.e. nonnegative ones (every nonnegative `i32` fits in `u32`;
the upper test is kept explicit for values coming from `Int`). -/
def tryIntoU32 (n : Int) : Option Nat :=
  if 0 ≤ n ∧ n < 2 ^ 32 then some n.toNat else none

/-- `EuclidianDistance::distance`, including the final
`.try_into().unwrap()`: `none` models the (never reached) panic of the
`unwrap`. -/
def EuclidianDistance.distance (left right : Rgba) : Option Nat :=
  tryIntoU32 (distanceI32 left right)

/-- The total `u32` value produced by `EuclidianDistance::distance`; the
`unwrap` never panics (`C10_euclid_distance_total`), so this is the value
every caller observes. -/
def euclidU32 (left right : Rgba) : Nat :=
  (distanceI32 left right).toNat

/-- The symmetric Euclidean formula stated by the specification (§4.2):
`(R1-R2)² + (G1-G2)² + (B1-B2)² + (A1-A2)²`.  Written from the spec's
words, to be compared with `distanceI32`, the formula the source computes. -/
def specEuclideanDistance (left right : Rgba) : Int :=
  ((left.r.val : Int) - (right.r.val : Int)) ^ 2
    + ((left.g.val : Int) - (right.g.val : Int)) ^ 2
    + ((left.b.val : Int) - (right.b.val : Int)) ^ 2
    + ((left.a.val : Int) - (right.a.val : Int)) ^ 2

/-- C1: the code does not implement the spec's symmetric formula.  At the
pair `(255,255,255,255)` / `(255,255,255,0)` the source's
`EuclidianDistance::distance` returns `0` — its blue and alpha terms
subtract the left channel from itself — while the spec's alpha-aware
formula gives `255² = 65025 ≠ 0`. -/
theorem C1_euclid_alpha_blind :
    EuclidianDistance.distance ⟨255, 255, 255, 255⟩ ⟨255, 255, 255, 0⟩ = some 0
      ∧ specEuclideanDistance ⟨255, 255, 255, 255⟩ ⟨255, 255, 255, 0⟩ = 65025 := by
  constructor <;> decide

/-- C10: `EuclidianDistance::distance` is total.  For every pair of RGBA
colors the `i32` result is nonnegative and at most `4·255²` (so no `i32`
addition overflows), and the final `i32 → u32` conversion succeeds,
returning the computed sum. -/
theorem C10_euclid_distance_total (left right : Rgba) :
    0 ≤ distanceI32 left right ∧ distanceI32 left right ≤ 4 * 255 ^ 2 ∧
      EuclidianDistance.distance left right = some (distanceI32 left right).toNat := by
  obtain ⟨hr, hg, hb, ha⟩ :
      ((left.r.val : Int) - (right.r.val : Int)) ^ 2 ≤ 255 ^ 2 ∧
      ((left.g.val : Int) - (right.g.val : Int)) ^ 2 ≤ 255 ^ 2 ∧
      ((left.b.val : Int) - (left.b.val : Int)) ^ 2 ≤ 255 ^ 2 ∧
      ((left.a.val : Int) - (left.a.val : Int)) ^ 2 ≤ 255 ^ 2 := by
    refine ⟨?_, ?_, ?_, ?_⟩ <;>
      · apply sq_le_sq' <;>
        · have h1 := left.r.isLt
          have h2 := right.r.isLt
          have h3 := left.g.isLt
          have h4 := right.g.isLt
          have h5 := left.b.isLt
          have h6 := left.a.isLt
          omega
  have hnn : 0 ≤ distanceI32 left right := by
    unfold distanceI32
    positivity
  have hub : distanceI32 left right ≤ 4 * 255 ^ 2 := by
    unfold distanceI32 at *
    omega
  refine ⟨hnn, hub, ?_⟩
  unfold EuclidianDistance.distance tryIntoU32
  rw [if_pos ⟨hnn, by omega⟩]

/-- The loop of `closest_color_in_pallete` (`src/lib/src/lib.rs`): running
minimum `m` (a `u32`), current best `col`, candidates updated only on a
*strictly* smaller distance. -/
def closestGo (d : Rgba → Rgba → Nat) (color : Rgba) :
    List Rgba → Nat → Option Rgba → Option Rgba
  | [], _, col => col
  | pcolor :: rest, m, col =>
    if d color pcolor < m then closestGo d color rest (d color pcolor) (some pcolor)
    else closestGo d color rest m col

/-- `closest_color_in_pallete` (`src/lib/src/lib.rs`): linear scan seeded
with `Distance::new_max()`, i.e. `u32::MAX = 2^32 - 1`.  The distance
algorithm is the function `d` (the trait method `DistanceAlgorithm::distance`,
a total `u32`-valued function). -/
def closest_color_in_pallete (color : Rgba) (palette : Palette)
    (d : Rgba → Rgba → Nat) : Option Rgba :=
  closestGo d color palette (2 ^ 32 - 1) none

lemma closestGo_ge (d : Rgba → Rgba → Nat) (color : Rgba) :
    ∀ (rest : List Rgba) (m : Nat) (col : Option Rgba),
      (∀ p ∈ rest, m ≤ d color p) → closestGo d color rest m col = col := by
  intro rest
  induction rest with
  | nil => intro m col _; rfl
  | cons p tl ih =>
    intro m col h
    have hp : ¬ d color p < m := Nat.not_lt.mpr (h p (List.mem_cons_self p tl))
    unfold closestGo
    rw [if_neg hp]
    exact ih m col fun q hq => h q (List.mem_cons_of_mem p hq)

lemma closestGo_min (d : Rgba → Rgba → Nat) (color : Rgba) :
    ∀ (rest : List Rgba) (m : Nat), (∃ p ∈ rest, d color p < m) →
      ∀ (col : Option Rgba),
      ∃ res, closestGo d color rest m col = some res ∧ res ∈ rest ∧
        d color res < m ∧ (∀ p ∈ rest, d color res ≤ d color p) ∧
        rest.find? (fun p => d color p == d color res) = some res := by
  intro rest
  induction rest with
  | nil => rintro m ⟨p, hp, _⟩ col; exact absurd hp (List.not_mem_nil p)
  | cons p tl ih =>
    intro m hex col
    by_cases hp : d color p < m
    · by_cases htl : ∃ q ∈ tl, d color q < d color p
      · obtain ⟨res, h1, h2, h3, h4, h5⟩ := ih (d color p) htl (some p)
        refine ⟨res, ?_, List.mem_cons_of_mem p h2, lt_trans h3 hp, ?_, ?_⟩
        · unfold closestGo; rw [if_pos hp]; exact h1
        · intro q hq
          rcases List.mem_cons.mp hq with rfl | hq'
          · exact le_of_lt h3
          · exact h4 q hq'
        · have hne : (d color p == d color res) = false := by
            simp only [beq_eq_false_iff_ne, ne_eq]
            omega
          simp only [List.find?, hne]
          exact h5
      · push_neg at htl
        have htl' : ∀ q ∈ tl, d color p ≤ d color q := fun q hq => htl q hq
        refine ⟨p, ?_, List.mem_cons_self p tl, hp, ?_, ?_⟩
        · unfold closestGo; rw [if_pos hp]
          exact closestGo_ge d color tl (d color p) (some p) htl'
        · intro q hq
          rcases List.mem_cons.mp hq with rfl | hq'
          · exact le_refl _
          · exact htl' q hq'
        · simp only [List.find?, beq_self_eq_true]
    · have hex' : ∃ q ∈ tl, d color q < m := by
        rcases hex with ⟨q, hq, hlt⟩
        rcases List.mem_cons.mp hq with rfl | hq'
        · exact absurd hlt hp
        · exact ⟨q, hq', hlt⟩
      obtain ⟨res, h1, h2, h3, h4, h5⟩ := ih m hex' col
      have hpge : m ≤ d color p := Nat.not_lt.mp hp
      refine ⟨res, ?_, List.mem_cons_of_mem p h2, h3, ?_, ?_⟩
      · unfold closestGo; rw [if_neg hp]; exact h1
      · intro q hq
        rcases List.mem_cons.mp hq with rfl | hq'
        · omega
        · exact h4 q hq'
      · have hne : (d color p == d color res) = false := by
          simp only [beq_eq_false_iff_ne, ne_eq]
          omega
        simp only [List.find?, hne]
        exact h5

/-- C4 (amended): whenever some palette entry's distance to the query is
strictly below the `u32::MAX` sentinel the search is seeded with,
`closest_color_in_pallete` returns `Some` entry that is a member of the
palette, attains the minimal distance, and is the *first* palette entry
attaining it (the `find?` conjunct). -/
theorem C4_closest_color_first_min (d : Rgba → Rgba → Nat) (color : Rgba)
    (palette : Palette) (h : ∃ p ∈ palette, d color p < 2 ^ 32 - 1) :
    ∃ res, closest_color_in_pallete color palette d = some res ∧
      res ∈ palette ∧ (∀ p ∈ palette, d color res ≤ d color p) ∧
      palette.find? (fun p => d color p == d color res) = some res := by
  obtain ⟨res, h1, h2, _, h4, h5⟩ :=
    closestGo_min d color palette (2 ^ 32 - 1) h none
  exact ⟨res, h1, h2, h4, h5⟩

/-- Witness for C4: the spec's concrete scenario — palette `[red, white]`,
query `(200,10,10,255)` has a Euclidean distance below the sentinel, so the
search returns the first minimal entry. -/
theorem C4_closest_color_first_min_witness :
    ∃ res, closest_color_in_pallete ⟨200, 10, 10, 255⟩
        [⟨255, 0, 0, 255⟩, ⟨255, 255, 255, 255⟩] euclidU32 = some res ∧
      res ∈ [(⟨255, 0, 0, 255⟩ : Rgba), ⟨255, 255, 255, 255⟩] ∧
      (∀ p ∈ [(⟨255, 0, 0, 255⟩ : Rgba), ⟨255, 255, 255, 255⟩],
        euclidU32 ⟨200, 10, 10, 255⟩ res ≤ euclidU32 ⟨200, 10, 10, 255⟩ p) ∧
      List.find? (fun p => euclidU32 ⟨200, 10, 10, 255⟩ p ==
          euclidU32 ⟨200, 10, 10, 255⟩ res)
        [⟨255, 0, 0, 255⟩, ⟨255, 255, 255, 255⟩] = some res :=
  C4_closest_color_first_min euclidU32 ⟨200, 10, 10, 255⟩
    [⟨255, 0, 0, 255⟩, ⟨255, 255, 255, 255⟩]
    ⟨⟨255, 0, 0, 255⟩, by decide, by decide⟩

/-- C4 counterexample: a metric satisfying the spec's identity property
(`distance(C,C) = 0`) whose value on distinct colors is `u32::MAX`.  On the
non-empty palette `[black]` with query `white` every candidate ties the
sentinel seed, the strict comparison never fires, and the search returns
`None` instead of some minimal entry. -/
theorem C4_sentinel_counterexample :
    closest_color_in_pallete ⟨255, 255, 255, 255⟩ [⟨0, 0, 0, 255⟩]
      (fun x y => if x = y then 0 else 2 ^ 32 - 1) = none := by
  decide

/-- C5 (amended): on an empty palette `closest_color_in_pallete` returns
`None` for every metric and query — a normal return, with no default or
arbitrary color substituted; the loud failure (an `unwrap` panic) happens
in the traversal that consumes the `None`, not in the search itself. -/
theorem C5_closest_empty_none (d : Rgba → Rgba → Nat) (color : Rgba) :
    closest_color_in_pallete color [] d = none := rfl

/-- C5 counterexample: invoking the search with an empty palette and the
Euclidean metric returns the ordinary value `None` — the search's own body
contains no assertion or panic, contrary to the claim. -/
theorem C5_empty_palette_counterexample :
    closest_color_in_pallete ⟨0, 0, 0, 255⟩ [] euclidU32 = none := rfl

/-- A 3-channel 8-bit pixel (`image::Rgb<u8>`). -/
abbrev Rgb3 := Channel × Channel × Channel

/-- The pixel buffer inside a `DynamicImage`, as the parallel dispatcher in
`src/lib/src/lib.rs` distinguishes it: the two fast-path layouts
(`ImageRgb8`, `ImageRgba8`) and every other layout.  A non-fast-path buffer
is represented by the pixel list of its `into_rgba8()` conversion, which is
all the fallback arm ever looks at. -/
inductive PixelBuf where
  | rgb8 (pix : List Rgb3)
  | rgba8 (pix : List Rgba)
  | other (pix : List Rgba)
deriving DecidableEq, Repr

/-- Number of pixels in the buffer. -/
def PixelBuf.numPixels : PixelBuf → Nat
  | .rgb8 pix => pix.length
  | .rgba8 pix => pix.length
  | .other pix => pix.length

/-- The per-pixel transform of the `ImageRgba8` arm applied to a whole
buffer: each pixel is replaced by `closest_color_in_pallete(..).unwrap()`;
`none` models the propagated `unwrap` panic. -/
def mapRgba8Buf (pix : List Rgba) (palette : Palette)
    (d : Rgba → Rgba → Nat) : Option (List Rgba) :=
  pix.mapM fun p => closest_color_in_pallete p palette d

/-- `map_image_to_palette_inner` (the `rayon` version in
`src/lib/src/lib.rs`).  `ImageRgb8`: each pixel is widened with alpha 255,
matched against the palette, and written back with the alpha dropped.
`ImageRgba8`: matched and written back as-is.  Fallback (`other`): the
source clones the image, converts the clone to rgba8, recursively maps the
*temporary* buffer, and never writes it back — so panics propagate
(the `Option` layer) but the original pixels are returned unchanged. -/
def map_image_to_palette_inner (img : PixelBuf) (palette : Palette)
    (d : Rgba → Rgba → Nat) : Option PixelBuf :=
  match img with
  | .rgb8 pix =>
    (pix.mapM fun p =>
        (closest_color_in_pallete ⟨p.1, p.2.1, p.2.2, 255⟩ palette d).map
          fun col => (col.r, col.g, col.b)).map PixelBuf.rgb8
  | .rgba8 pix => (mapRgba8Buf pix palette d).map PixelBuf.rgba8
  | .other pix => (mapRgba8Buf pix palette d).map fun _ => PixelBuf.other pix

/-- `map_image_to_palette` (`src/lib/src/lib.rs`): delegates to the inner
implementation. -/
def map_image_to_palette (img : PixelBuf) (palette : Palette)
    (d : Rgba → Rgba → Nat) : Option PixelBuf :=
  map_image_to_palette_inner img palette d

/-- C2: on the fallback path the buffer is *not* overwritten.  A one-pixel
non-fast-path image (rgba8 view `(100,100,100,255)`) mapped onto the
palette `[red]` with the Euclidean metric returns with its pixel unchanged,
and that pixel is not a palette member — the source maps a converted clone
and discards the result instead of writing it back. -/
theorem C2_fallback_not_overwritten :
    map_image_to_palette (.other [⟨100, 100, 100, 255⟩]) [⟨255, 0, 0, 255⟩]
        euclidU32 = some (.other [⟨100, 100, 100, 255⟩])
      ∧ (⟨100, 100, 100, 255⟩ : Rgba) ∉ ([⟨255, 0, 0, 255⟩] : Palette) := by
  refine ⟨by decide, by decide⟩

/-- C3: the fallback path does not produce the same final pixel values as
the fast path.  On the same rgba pixel list `[(50,50,50,255)]` and palette
`[blue]`, the rgba8 fast path rewrites the pixel to the palette entry while
the fallback arm returns the buffer unchanged, and the two pixel lists
differ. -/
theorem C3_fallback_differs_from_fastpath :
    map_image_to_palette_inner (.other [⟨50, 50, 50, 255⟩]) [⟨0, 0, 255, 255⟩]
        euclidU32 = some (.other [⟨50, 50, 50, 255⟩])
      ∧ map_image_to_palette_inner (.rgba8 [⟨50, 50, 50, 255⟩])
          [⟨0, 0, 255, 255⟩] euclidU32 = some (.rgba8 [⟨0, 0, 255, 255⟩])
      ∧ ([(⟨50, 50, 50, 255⟩ : Rgba)] ≠ [(⟨0, 0, 255, 255⟩ : Rgba)]) := by
  refine ⟨by decide, by decide, by decide⟩

/-- C6 (amended): for every image with at least one pixel and every metric,
`map_image_to_palette` with an empty palette panics (the `unwrap` of the
search's `None`); a zero-pixel image returns without touching the
palette. -/
theorem C6_map_empty_palette_panics (d : Rgba → Rgba → Nat) (img : PixelBuf)
    (h : 0 < img.numPixels) : map_image_to_palette img [] d = none := by
  cases img with
  | rgb8 pix =>
    cases pix with
    | nil => simp [PixelBuf.numPixels] at h
    | cons p tl =>
      simp [map_image_to_palette, map_image_to_palette_inner, List.mapM,
        List.mapM.loop, closest_color_in_pallete, closestGo]
  | rgba8 pix =>
    cases pix with
    | nil => simp [PixelBuf.numPixels] at h
    | cons p tl =>
      simp [map_image_to_palette, map_image_to_palette_inner, mapRgba8Buf,
        List.mapM, List.mapM.loop, closest_color_in_pallete, closestGo]
  | other pix =>
    cases pix with
    | nil => simp [PixelBuf.numPixels] at h
    | cons p tl =>
      simp [map_image_to_palette, map_image_to_palette_inner, mapRgba8Buf,
        List.mapM, List.mapM.loop, closest_color_in_pallete, closestGo]

/-- Witness for C6: a one-pixel rgba8 image with an empty palette panics. -/
theorem C6_map_empty_palette_panics_witness :
    map_image_to_palette (.rgba8 [⟨1, 2, 3, 4⟩]) [] (fun _ _ => 0) = none :=
  C6_map_empty_palette_panics (fun _ _ => 0) (.rgba8 [⟨1, 2, 3, 4⟩]) (by decide)

/-- C6 counterexample: a zero-pixel image (e.g. width or height 0) with an
empty palette does *not* panic — the traversal returns normally with the
buffer unchanged, because no pixel is ever looked up. -/
theorem C6_zero_pixel_no_panic :
    map_image_to_palette (.rgba8 []) [] (fun _ _ => 0) = some (.rgba8 []) := by
  rfl

/-- A byte of a Rust `String`'s UTF-8 representation.  The hex parser in
`src/lib/src/palette/serde.rs` works on bytes: `s.len()` is the byte
length and `&s[0..2]` etc. are byte slices, which *panic* when an index
falls inside a multi-byte UTF-8 character. -/
abbrev Byte := Fin 256

/-- `str::is_char_boundary` is false exactly at a UTF-8 continuation byte
(`0x80..=0xBF`); slicing at such an index panics. -/
def contB (b : Byte) : Bool := decide (128 ≤ b.val) && decide (b.val < 192)

/-- `char::to_digit(16)` on an ASCII byte: the value of a hexadecimal
digit (`0`-`9`, `a`-`f`, `A`-`F`, byte values compared numerically),
`none` otherwise.  Bytes ≥ 128 are never digits, which also covers the
characters a multi-byte UTF-8 slice decodes to. -/
def hexDigitVal (b : Byte) : Option (Fin 16) :=
  if h : 48 ≤ b.val ∧ b.val ≤ 57 then some ⟨b.val - 48, by omega⟩
  else if h : 97 ≤ b.val ∧ b.val ≤ 102 then some ⟨b.val - 97 + 10, by omega⟩
  else if h : 65 ≤ b.val ∧ b.val ≤ 70 then some ⟨b.val - 65 + 10, by omega⟩
  else none

/-- `u8::from_str_radix(s, 16)` on a two-byte slice.  Rust's integer
parser accepts an optional leading `+` (byte 43) or `-` (byte 45) before
the digits; for the unsigned `u8` a `-` succeeds only when the digit
value is `0`.  Two hex digits give `16·hi + lo ≤ 255`, never overflowing
`u8`; a slice holding a single two-byte character has a first byte
≥ 0xC2, which is no sign and no digit, hence an error. -/
def fromStrRadix16u8 (b1 b2 : Byte) : Option Channel :=
  if b1 = 43 then (hexDigitVal b2).map (Fin.castLE (by omega))
  else if b1 = 45 then
    match hexDigitVal b2 with
    | some v => if v = 0 then some 0 else none
    | none => none
  else
    match hexDigitVal b1, hexDigitVal b2 with
    | some v1, some v2 =>
      some ⟨16 * v1.val + v2.val, by
        have h1 := v1.isLt
        have h2 := v2.isLt
        omega⟩
    | _, _ => none

/-- The 6-byte arm of `parse_hex_color`: three slices `&s[0..2]`,
`&s[2..4]`, `&s[4..6]` parsed in order with `?` early return.  The
internal boundary at byte 2 is checked by the first slice and the one at
byte 4 by the second, *before* the respective `from_str_radix` call;
indices 0 and 6 (= `len`) are always boundaries.  The outer `none` models
the slicing panic, `some none` the function's `None`. -/
def parseHex6 (c0 c1 c2 c3 c4 c5 : Byte) : Option (Option Rgba) :=
  if contB c2 then none
  else
    match fromStrRadix16u8 c0 c1 with
    | none => some none
    | some r =>
      if contB c4 then none
      else
        match fromStrRadix16u8 c2 c3 with
        | none => some none
        | some g =>
          match fromStrRadix16u8 c4 c5 with
          | none => some none
          | some b => some (some ⟨r, g, b, 255⟩)

/-- The 8-byte arm of `parse_hex_color`: four slices checking the
internal boundaries at bytes 2, 4 and 6 in evaluation order, as in
`parseHex6`. -/
def parseHex8 (c0 c1 c2 c3 c4 c5 c6 c7 : Byte) : Option (Option Rgba) :=
  if contB c2 then none
  else
    match fromStrRadix16u8 c0 c1 with
    | none => some none
    | some r =>
      if contB c4 then none
      else
        match fromStrRadix16u8 c2 c3 with
        | none => some none
        | some g =>
          if contB c6 then none
          else
            match fromStrRadix16u8 c4 c5 with
            | none => some none
            | some b =>
              match fromStrRadix16u8 c6 c7 with
              | none => some none
              | some alpha => some (some ⟨r, g, b, alpha⟩)

/-- `parse_hex_color` (`src/lib/src/palette/serde.rs`) over the UTF-8
bytes of the input string: strip the leading `#` (byte 35, a one-byte
character, so stripping never panics), then dispatch on the byte length —
6 and 8 go to the slicing arms, anything else returns `None` without
touching the content.  Result: `none` = the byte slicing panicked,
`some none` = `None`, `some (some c)` = `Some c`. -/
def parse_hex_color (s : List Byte) : Option (Option Rgba) :=
  match s with
  | c :: rest =>
    if c = 35 then
      match rest with
      | [c0, c1, c2, c3, c4, c5] => parseHex6 c0 c1 c2 c3 c4 c5
      | [c0, c1, c2, c3, c4, c5, c6, c7] => parseHex8 c0 c1 c2 c3 c4 c5 c6 c7
      | _ => some none
    else some none
  | [] => some none

/-- One digit of `format!("{:02X}", _)`: uppercase hexadecimal, as a
byte. -/
def hexDigitByteUpper (n : Fin 16) : Byte :=
  if h : n.val < 10 then ⟨48 + n.val, by omega⟩
  else ⟨65 + n.val - 10, by have := n.isLt; omega⟩

/-- A channel printed as two uppercase hex digit bytes. -/
def toHexByte (v : Channel) : List Byte :=
  [hexDigitByteUpper ⟨v.val / 16, by have := v.isLt; omega⟩,
    hexDigitByteUpper ⟨v.val % 16, by have := v.isLt; omega⟩]

/-- `to_hex` (`src/lib/src/palette/serde.rs`): `#RRGGBB` when the alpha is
255, `#RRGGBBAA` otherwise, uppercase digits, as UTF-8 bytes (all
ASCII). -/
def to_hex (c : Rgba) : List Byte :=
  if c.a.val = 255 then
    35 :: (toHexByte c.r ++ toHexByte c.g ++ toHexByte c.b)
  else
    35 :: (toHexByte c.r ++ toHexByte c.g ++ toHexByte c.b ++ toHexByte c.a)

/-- The untagged `ColorRepr` of `src/lib/src/palette/serde.rs` after JSON
decoding: a string (carried as its UTF-8 bytes) or an array of `u8`
channels. -/
inductive ColorRepr where
  | hex (s : List Byte)
  | arr (v : List Channel)
deriving DecidableEq, Repr

/-- One entry of the `Deserialize` loop in `src/lib/src/palette/serde.rs`:
hex strings go through `parse_hex_color` — whose slicing panic (`none`)
propagates — arrays must have length 3 (alpha 255) or 4; rejected entries
give a typed `serde` error. -/
def colorFromRepr : ColorRepr → Option (Except String Rgba)
  | .hex s =>
    match parse_hex_color s with
    | none => none
    | some none =>
      some (.error "invalid hex color (expected #RRGGBB or #RRGGBBAA)")
    | some (some c) => some (.ok c)
  | .arr v =>
    some
      (match v with
       | [r, g, b] => .ok ⟨r, g, b, 255⟩
       | [r, g, b, a] => .ok ⟨r, g, b, a⟩
       | _ => .error "color array must be [r,g,b] or [r,g,b,a]")

/-- `impl Deserialize for Palette` (`src/lib/src/palette/serde.rs`):
decode every entry in order, stopping at the first typed error (`?`); a
panic in an entry aborts the whole deserialization (`none`). -/
def paletteDeserialize : List ColorRepr → Option (Except String Palette)
  | [] => some (.ok [])
  | e :: rest =>
    match colorFromRepr e with
    | none => none
    | some (.error msg) => some (.error msg)
    | some (.ok c) =>
      match paletteDeserialize rest with
      | none => none
      | some (.error msg) => some (.error msg)
      | some (.ok cs) => some (.ok (c :: cs))

/-- `impl Serialize for Palette` (`src/lib/src/palette/serde.rs`): each
color as a hex string (its UTF-8 bytes). -/
def paletteSerializeHex (p : Palette) : List (List Byte) :=
  p.map to_hex

/-- `impl Serialize for Palette` (`src/lib/src/palette.rs`): each color as
its 4-channel array `e.0`. -/
def paletteSerializeArray (p : Palette) : List (List Channel) :=
  p.map fun c => [c.r, c.g, c.b, c.a]

/-- The `visit_seq` deserializer of `src/lib/src/palette.rs`: each element
must be a channel array of length 3 (alpha 255) or 4; no slicing is
involved, so no panic path exists. -/
def paletteDeserializeArray (raw : List (List Channel)) : Except String Palette :=
  raw.mapM fun v =>
    match v with
    | [r, g, b] => .ok ⟨r, g, b, 255⟩
    | [r, g, b, a] => .ok ⟨r, g, b, a⟩
    | _ => .error "expected an array of length 3 (RGB) or 4 (RGBA)"

/-- A case-insensitive hexadecimal digit byte (`0`-`9`, `a`-`f`,
`A`-`F`), the characters the spec's `#RRGGBB` / `#RRGGBBAA` forms are
made of; every byte of a multi-byte UTF-8 character is ≥ 128 and so is
never a hex digit. -/
def isHexDigit (b : Byte) : Bool :=
  (decide (48 ≤ b.val) && decide (b.val ≤ 57))
    || (decide (97 ≤ b.val) && decide (b.val ≤ 102))
    || (decide (65 ≤ b.val) && decide (b.val ≤ 70))

/-- A two-byte channel group the source's integer parser accepts: two hex
digits, or `+` (43) followed by one hex digit, or `-` (45) followed by
`0` (48, the only hex digit of value 0). -/
def extendedPairOK (b1 b2 : Byte) : Bool :=
  (isHexDigit b1 && isHexDigit b2) || (b1 == 43 && isHexDigit b2)
    || (b1 == 45 && b2 == 48)

lemma hexDigitVal_isSome (b : Byte) : (hexDigitVal b).isSome = isHexDigit b := by
  unfold hexDigitVal isHexDigit
  split_ifs with h1 h2 h3 <;> simp_all

lemma hexDigitVal_zero (b : Byte) : hexDigitVal b = some 0 ↔ b = 48 := by
  constructor
  · intro h
    unfold hexDigitVal at h
    by_cases h1 : 48 ≤ b.val ∧ b.val ≤ 57
    · rw [dif_pos h1] at h
      have hv : b.val - 48 = 0 := congrArg Fin.val (Option.some.inj h)
      exact Fin.ext (show b.val = 48 by omega)
    · rw [dif_neg h1] at h
      by_cases h2 : 97 ≤ b.val ∧ b.val ≤ 102
      · rw [dif_pos h2] at h
        have hv : b.val - 97 + 10 = 0 := congrArg Fin.val (Option.some.inj h)
        omega
      · rw [dif_neg h2] at h
        by_cases h3 : 65 ≤ b.val ∧ b.val ≤ 70
        · rw [dif_pos h3] at h
          have hv : b.val - 65 + 10 = 0 := congrArg Fin.val (Option.some.inj h)
          omega
        · rw [dif_neg h3] at h
          exact absurd h (by simp)
  · rintro rfl
    rfl

lemma fromStrRadix_isSome (b1 b2 : Byte) :
    (fromStrRadix16u8 b1 b2).isSome = extendedPairOK b1 b2 := by
  have hplus : isHexDigit 43 = false := by decide
  have hminus : isHexDigit 45 = false := by decide
  unfold fromStrRadix16u8 extendedPairOK
  by_cases h1 : b1 = 43
  · subst h1
    rw [if_pos rfl]
    simp [hplus, hexDigitVal_isSome, show ((43 : Byte) == 45) = false by decide]
  · by_cases h2 : b1 = 45
    · subst h2
      rw [if_neg (by decide), if_pos rfl]
      rw [hminus, Bool.false_and, Bool.false_or,
        show ((45 : Byte) == 43) = false by decide, Bool.false_and,
        Bool.false_or, show ((45 : Byte) == 45) = true by decide,
        Bool.true_and]
      cases hv : hexDigitVal b2 with
      | none =>
        have hb2 : (b2 == 48) = false := by
          rw [beq_eq_false_iff_ne]
          intro h
          subst h
          exact absurd hv (by decide)
        rw [hb2]
        rfl
      | some v =>
        by_cases hv0 : v = 0
        · subst hv0
          have : b2 = 48 := (hexDigitVal_zero b2).mp hv
          subst this
          rfl
        · have hb2 : (b2 == 48) = false := by
            rw [beq_eq_false_iff_ne]
            intro h
            subst h
            have : v = 0 :=
              Option.some.inj ((by decide : hexDigitVal 48 = some 0) ▸ hv).symm
            exact hv0 this
          rw [hb2]
          simp [hv0]
    · rw [if_neg h1, if_neg h2]
      have hb1 : (b1 == 43) = false := beq_eq_false_iff_ne.mpr h1
      have hb2 : (b1 == 45) = false := beq_eq_false_iff_ne.mpr h2
      rw [hb1, hb2, Bool.false_and, Bool.false_and, Bool.or_false, Bool.or_false]
      rw [← hexDigitVal_isSome, ← hexDigitVal_isSome]
      cases hexDigitVal b1 <;> cases hexDigitVal b2 <;> rfl

lemma fromStrRadix_cont (b1 b2 : Byte) (h : contB b1 = true) :
    fromStrRadix16u8 b1 b2 = none := by
  unfold contB at h
  simp only [Bool.and_eq_true, decide_eq_true_eq] at h
  have h43 : ¬ b1 = 43 := by
    intro heq
    subst heq
    exact absurd h (by decide)
  have h45 : ¬ b1 = 45 := by
    intro heq
    subst heq
    exact absurd h (by decide)
  have hdig : hexDigitVal b1 = none := by
    unfold hexDigitVal
    rw [dif_neg (by omega), dif_neg (by omega), dif_neg (by omega)]
  unfold fromStrRadix16u8
  rw [if_neg h43, if_neg h45, hdig]

lemma extendedPairOK_cont (b1 b2 : Byte) (h : contB b1 = true) :
    extendedPairOK b1 b2 = false := by
  rw [← fromStrRadix_isSome, fromStrRadix_cont b1 b2 h]
  rfl

set_option maxRecDepth 10000 in
lemma fromStrRadix_toHexByte :
    ∀ v : Channel,
      fromStrRadix16u8 (hexDigitByteUpper ⟨v.val / 16, by have := v.isLt; omega⟩)
        (hexDigitByteUpper ⟨v.val % 16, by have := v.isLt; omega⟩) = some v := by
  decide

lemma contB_hexUpper (n : Fin 16) : contB (hexDigitByteUpper n) = false := by
  revert n
  decide

lemma parse_to_hex (c : Rgba) : parse_hex_color (to_hex c) = some (some c) := by
  obtain ⟨r, g, b, a⟩ := c
  by_cases ha : a.val = 255
  · have ha' : a = (255 : Channel) := Fin.ext ha
    subst ha'
    have h2 : to_hex ⟨r, g, b, 255⟩ =
        (35 : Byte) :: (toHexByte r ++ toHexByte g ++ toHexByte b) := rfl
    rw [h2]
    simp only [toHexByte, List.cons_append, List.nil_append]
    simp [parse_hex_color, parseHex6, contB_hexUpper, fromStrRadix_toHexByte]
  · have h2 : to_hex ⟨r, g, b, a⟩ =
        (35 : Byte) :: (toHexByte r ++ toHexByte g ++ toHexByte b ++ toHexByte a) := by
      unfold to_hex
      rw [if_neg ha]
    rw [h2]
    simp only [toHexByte, List.cons_append, List.nil_append]
    simp [parse_hex_color, parseHex8, contB_hexUpper, fromStrRadix_toHexByte]

/-- C7: palette serialization round-trips, in both representations.  The
array form serializes every color as a 4-tuple, which the array
deserializer reads back as-is; the hex form serializes to `#RRGGBB` /
`#RRGGBBAA` (all-ASCII bytes, so no slicing panic is possible), which
`parse_hex_color` reads back, restoring alpha 255 for the 6-digit
form. -/
theorem C7_palette_roundtrip (p : Palette) :
    paletteDeserializeArray (paletteSerializeArray p) = .ok p
      ∧ paletteDeserialize ((paletteSerializeHex p).map ColorRepr.hex)
          = some (.ok p) := by
  constructor
  · induction p with
    | nil => rfl
    | cons c tl ih =>
      simp only [paletteSerializeArray, List.map_cons, paletteDeserializeArray,
        List.mapM_cons] at *
      rw [ih]
      rfl
  · induction p with
    | nil => rfl
    | cons c tl ih =>
      simp only [paletteSerializeHex, List.map_cons, paletteDeserialize] at *
      rw [show colorFromRepr (ColorRepr.hex (to_hex c)) = some (.ok c) by
        simp [colorFromRepr, parse_to_hex]]
      rw [ih]

